import Mathlib

/-!
Verification of the walnut cache-stampede-prevention layer.

Shallow embedding of `walnut/core.py` and `walnut/utils.py`:
  * a model of the coordination store (Redis) restricted to the commands the
    two atomic scripts and the surrounding code actually issue
    (`setnx`, `del`, `rpush`, `expire`, `lindex`), dispatched by command
    name exactly as `redis.call` does, so that the literal command-name
    strings appearing in the source scripts are interpreted faithfully;
  * the three Lua scripts `GET_SCRIPT`, `PUSH_AND_EXPIRE_SCRIPT`,
    `PUSH_AND_DELETE_SCRIPT` as step-by-step executions of those calls,
    with the documented Redis behaviour that effects performed before a
    script error persist;
  * the exception-handling call sites of `get_computed_or_redis_value`
    (degradation policy), the local waiter coalescer (`wrapper` and
    `run_local_waiters`), the configuration validation ladder of
    `async_cache`, and `make_key` together with a full SHA-1.
-/

namespace Walnut

/-- A Redis value: either a string or an ordered list (the only two types
the walnut protocol ever stores). -/
inductive RVal where
  | str  : String → RVal
  | list : List String → RVal
deriving DecidableEq, Repr

/-- A keyspace entry: the value plus its optional time-to-live
(`none` = no expiry set, the key persists indefinitely).  The TTL is kept
as the wire-level string argument of the `expire` command. -/
structure Entry where
  val : RVal
  ttl : Option String
deriving DecidableEq, Repr

/-- The store keyspace: an association list from key to entry (first
binding wins, and the operations below keep keys unique). -/
def Store := List (String × Entry)

instance : DecidableEq Store := inferInstanceAs (DecidableEq (List (String × Entry)))

/-- Look up a key in the store. -/
def Store.find (st : Store) (k : String) : Option Entry :=
  match st with
  | [] => none
  | (k₁, e) :: rest => if k₁ = k then some e else Store.find rest k

/-- Remove a key from the store (all bindings). -/
def Store.erase (st : Store) (k : String) : Store :=
  st.filter (fun p => decide (p.1 ≠ k))

/-- Bind a key in the store, replacing any previous binding. -/
def Store.insert (st : Store) (k : String) (e : Entry) : Store :=
  (k, e) :: st.erase k

/-- A reply from a single Redis command. -/
inductive RResp where
  | int  : Nat → RResp
  | bulk : Option String → RResp
deriving DecidableEq, Repr

/-- Outcome of one Redis command: a reply, or a Redis error (wrong type,
unknown command).  Errors raised inside a Lua script abort the script but
effects of earlier commands persist, hence the store is returned in both
cases. -/
inductive RedisOut where
  | ok  : RResp → RedisOut
  | err : String → RedisOut
deriving DecidableEq, Repr

/-- One `redis.call(name, ...)` step, dispatched by command name exactly as
Redis does: the commands the walnut scripts use are implemented, and any
other name (such as the `delete` appearing in `PUSH_AND_DELETE_SCRIPT`) is
an unknown command and raises a script error. -/
def redisCall (st : Store) (name : String) (args : List String) :
    Store × RedisOut :=
  match name, args with
  | "setnx", [k, v] =>
    match st.find k with
    | some _ => (st, .ok (.int 0))
    | none   => (st.insert k ⟨.str v, none⟩, .ok (.int 1))
  | "del", [k] =>
    match st.find k with
    | some _ => (st.erase k, .ok (.int 1))
    | none   => (st, .ok (.int 0))
  | "rpush", [k, v] =>
    match st.find k with
    | none => (st.insert k ⟨.list [v], none⟩, .ok (.int 1))
    | some ⟨.list l, t⟩ => (st.insert k ⟨.list (l ++ [v]), t⟩, .ok (.int (l.length + 1)))
    | some ⟨.str _, _⟩ => (st, .err "WRONGTYPE")
  | "expire", [k, t] =>
    match st.find k with
    | some e => (st.insert k ⟨e.val, some t⟩, .ok (.int 1))
    | none   => (st, .ok (.int 0))
  | "lindex", [k, "0"] =>
    -- the only index appearing in the source scripts is the literal 0,
    -- i.e. a peek of the list head
    match st.find k with
    | none => (st, .ok (.bulk none))
    | some ⟨.list l, _⟩ => (st, .ok (.bulk l.head?))
    | some ⟨.str _, _⟩ => (st, .err "WRONGTYPE")
  | _, _ => (st, .err ("ERR Unknown Redis command called from script: " ++ name))

/-- Result of a whole script: the reply array on success, or the error that
aborted it. -/
inductive ScriptOut (α : Type) where
  | ok  : α → ScriptOut α
  | err : String → ScriptOut α
deriving DecidableEq, Repr

/-- `GET_SCRIPT`, executed atomically:
```
local owned = redis.call('setnx', KEYS[1], ARGV[1])
if owned == 1 then redis.call('del', KEYS[2]) end
return {owned, redis.call('lindex', KEYS[2], 0)}
```
KEYS[1] = lock_key, KEYS[2] = value_key, ARGV[1] = id_tag. -/
def get_script (st : Store) (lock_key value_key id_tag : String) :
    Store × ScriptOut (Nat × Option String) :=
  match redisCall st "setnx" [lock_key, id_tag] with
  | (st₁, .ok (.int owned)) =>
    let st₂ := if owned = 1 then (redisCall st₁ "del" [value_key]).1 else st₁
    match redisCall st₂ "lindex" [value_key, "0"] with
    | (st₃, .ok (.bulk peeked)) => (st₃, .ok (owned, peeked))
    | (st₃, .ok _) => (st₃, .err "unexpected reply")
    | (st₃, .err e) => (st₃, .err e)
  | (st₁, .ok _) => (st₁, .err "unexpected reply")
  | (st₁, .err e) => (st₁, .err e)

/-- `PUSH_AND_EXPIRE_SCRIPT`, executed atomically:
```
return {redis.call('rpush', KEYS[1], ARGV[1]), redis.call('expire', KEYS[2], ARGV[2])}
```
KEYS[1] = value_key, KEYS[2] = lock_key, ARGV[1] = json_msg, ARGV[2] = ttl. -/
def push_and_expire_script (st : Store) (value_key lock_key json_msg ttl : String) :
    Store × ScriptOut (Nat × Nat) :=
  match redisCall st "rpush" [value_key, json_msg] with
  | (st₁, .ok (.int pushed)) =>
    match redisCall st₁ "expire" [lock_key, ttl] with
    | (st₂, .ok (.int expired)) => (st₂, .ok (pushed, expired))
    | (st₂, .ok _) => (st₂, .err "unexpected reply")
    | (st₂, .err e) => (st₂, .err e)
  | (st₁, .ok _) => (st₁, .err "unexpected reply")
  | (st₁, .err e) => (st₁, .err e)

/-- `PUSH_AND_DELETE_SCRIPT`, executed atomically:
```
return {redis.call('rpush', KEYS[1], ARGV[1]), redis.call('delete', KEYS[2])}
```
KEYS[1] = value_key, KEYS[2] = lock_key, ARGV[1] = empty json msg.  Note the
source invokes the command name `delete` here (while `GET_SCRIPT` uses
`del`); the dispatch is by that literal name. -/
def push_and_delete_script (st : Store) (value_key lock_key json_msg : String) :
    Store × ScriptOut (Nat × Nat) :=
  match redisCall st "rpush" [value_key, json_msg] with
  | (st₁, .ok (.int pushed)) =>
    match redisCall st₁ "delete" [lock_key] with
    | (st₂, .ok (.int deleted)) => (st₂, .ok (pushed, deleted))
    | (st₂, .ok _) => (st₂, .err "unexpected reply")
    | (st₂, .err e) => (st₂, .err e)
  | (st₁, .ok _) => (st₁, .err "unexpected reply")
  | (st₁, .err e) => (st₁, .err e)

/-- Ownership as the Python caller observes it: `bool(int(own_lock))` applied
to the first element of the script reply; a script error is not an
observation of ownership. -/
def ownedOf (out : ScriptOut (Nat × Option String)) : Bool :=
  match out with
  | .ok (owned, _) => owned ≠ 0
  | .err _ => false

/-- A burst of processes racing `GET_SCRIPT` on the same (lock_key,
value_key): each script execution is atomic at the store, so any
interleaving of the racing clients is a serialization; `race` runs them in
that serialization order (one id_tag per process) and records the ownership
boolean each one observes. -/
def race (st : Store) (lock_key value_key : String) : List String → List Bool
  | [] => []
  | tag :: rest =>
    let step := get_script st lock_key value_key tag
    ownedOf step.2 :: race step.1 lock_key value_key rest

/-- Python truthiness of the validated `ttl` option (`if ttl:`): `None` is
falsy, an integer is truthy iff nonzero (validation only admits positive
integers, so after `async_cache` this coincides with `ttl ≠ None`). -/
def ttl_truthy : Option Nat → Bool
  | none => false
  | some t => t != 0

/-- Store effect of the success branch of `cache_value`: with a TTL it runs
`PUSH_AND_EXPIRE_SCRIPT` (one atomic script: push the content message onto
the value key and set the lock key expiry to `str(ttl)`); without one it
issues a plain `rpush` of the content message and touches nothing else. -/
def cache_value_store (st : Store) (ttl : Option Nat)
    (value_key lock_key json_msg : String) : Store :=
  if ttl_truthy ttl then
    (push_and_expire_script st value_key lock_key json_msg
      (toString (ttl.getD 0))).1
  else
    (redisCall st "rpush" [value_key, json_msg]).1

/-- A decoded Python value carried in a broadcast message.  `none` is the
decoding of JSON `null`; it is a value, distinct from the private
`SENTINEL` object (`.sentinel` of `DictGet` below). -/
inductive PyVal where
  | none
  | int (n : Int)
  | str (s : String)
deriving DecidableEq, Repr

/-- A decoded JSON-object message: the association list of its fields.
Serialization is an out-of-scope collaborator, so messages are modelled at
this decoded level; `json_encode_func(dict(content=value))` is the
one-field object and `EMPTY_JSON_MSG` (`json_encode_func({})`) the empty
one. -/
def Msg := List (String × PyVal)

instance : DecidableEq Msg := inferInstanceAs (DecidableEq (List (String × PyVal)))

/-- The decoded empty placeholder message `{}`. -/
def EMPTY_MSG : Msg := []

/-- The content message `dict(content=value)` built by `cache_value`. -/
def content_msg (v : PyVal) : Msg := [("content", v)]

/-- Result of `msg.get('content', SENTINEL)`: either the private sentinel
(field absent) or the field's value — which may itself be the decoding of
JSON `null`. -/
inductive DictGet where
  | sentinel
  | found (v : PyVal)
deriving DecidableEq, Repr

/-- `dict.get` with the `SENTINEL` default. -/
def dict_get : Msg → String → DictGet
  | [], _ => .sentinel
  | (k₁, v) :: rest, k => if k₁ = k then .found v else dict_get rest k

/-- The tail of the non-owner branch of `get_computed_or_redis_value`
(lines 297–301): `value = msg.get('content', SENTINEL)`, and only if the
result *is* the sentinel does the caller compute the fallback itself.
Returns the value delivered to the caller and whether the fallback
computation ran. -/
def resolve_waiter_msg (msg : Msg) (fallback : PyVal) : PyVal × Bool :=
  match dict_get msg "content" with
  | .found v => (v, false)
  | .sentinel => (fallback, true)

/-- A store operation outcome as seen at a Python call site: a returned
value or a raised exception, identified by its class name. -/
inductive PyRes (α : Type) where
  | ok (a : α)
  | exn (cls : String)
deriving DecidableEq, Repr

/-- The configured `skip_cache_on` classification: `except skip_cache_on`
catches exactly the classes this predicate accepts. -/
def SkipOn := String → Bool

/-- `json_encode_func({})` with compact separators. -/
def EMPTY_JSON_MSG : String := "\x7b\x7d"

/-- Exception handling of `get_lock_or_cached_value` (lines 180–188): on
success return `(bool(int(own_lock)), json_msg)`; a classified store
failure is logged and substituted with `(False, EMPTY_JSON_MSG)`; any
other exception propagates. -/
def get_lock_or_cached_value (skip : SkipOn)
    (evalRes : PyRes (Nat × Option String)) : PyRes (Bool × Option String) :=
  match evalRes with
  | .ok (own_lock, json_msg) => .ok (own_lock ≠ 0, json_msg)
  | .exn cls => if skip cls then .ok (false, some EMPTY_JSON_MSG) else .exn cls

/-- Exception handling of `notify_waiters_and_release_lock`
(lines 190–206): the body is guarded by a bare `except:`, so every
exception — classified or not — is logged and swallowed; the call never
raises. -/
def notify_waiters_and_release_lock (evalRes : PyRes (Nat × Nat)) : PyRes Unit :=
  match evalRes with
  | .ok _ => .ok ()
  | .exn _ => .ok ()

/-- Exception handling of `cache_value` (lines 217–232): a classified
store failure is logged (waiters are left to time out); any other
exception propagates. -/
def cache_value_handler (skip : SkipOn) (evalRes : PyRes (Nat × Nat)) :
    PyRes Unit :=
  match evalRes with
  | .ok _ => .ok ()
  | .exn cls => if skip cls then .ok () else .exn cls

/-- Exception handling of `wait_for_cached_value` (lines 245–256): a
classified store failure makes `json_msg = None`; a `None` (timeout or
such a failure) is replaced by `EMPTY_JSON_MSG`; other exceptions
propagate. -/
def wait_for_cached_value (skip : SkipOn) (popRes : PyRes (Option String)) :
    PyRes String :=
  match popRes with
  | .ok json_msg =>
    .ok (match json_msg with
         | none => EMPTY_JSON_MSG
         | some s => s)
  | .exn cls => if skip cls then .ok EMPTY_JSON_MSG else .exn cls

/-- Modelled from the spec: the store collaborator's
BLOCKING-ROTATE-POP(list_key, timeout) → value-or-timeout
(`redis.brpoplpush(value_key, value_key, max_wait)`), at the decoded
message level.  A pop from a non-empty queue rotates the tail element to
the head and returns it; `value-or-timeout` with nothing available is the
timeout outcome `none` — per the spec's configuration contract this holds
for `max_wait = 0` ("do not block, fall back immediately on miss") as
well as for a positive bound elapsing; real-time durations themselves are
outside the embedding. -/
def brpoplpush_rotate (queue : List Msg) (max_wait : Nat) :
    Option Msg × List Msg :=
  match queue.getLast? with
  | Option.none => (none, queue)
  | some m => (some m, m :: queue.dropLast)

/-- Lines 123–124 of `async_cache`: an unspecified `max_wait` becomes 0. -/
def resolve_max_wait : Option Nat → Nat
  | none => 0
  | some w => w

/-- The non-owner path of `get_computed_or_redis_value` (lines 289–301)
with an error-free store: if the acquire-time peek produced no message,
wait on the value queue (bounded by `max_wait`, a timeout yielding the
empty placeholder); then resolve the message content, computing the
fallback directly when there is none. -/
def non_owner_flow (peeked : Option Msg) (queue : List Msg) (max_wait : Nat)
    (fallback : PyVal) : PyVal × Bool :=
  let msg :=
    match peeked with
    | some m => m
    | Option.none =>
      match (brpoplpush_rotate queue max_wait).1 with
      | some m => m
      | Option.none => EMPTY_MSG
  resolve_waiter_msg msg fallback

/-- Outcome of a master attempt: the computed/cached value
(`run_local_waiters` invoked as a callback) or an error (invoked as an
errback). -/
inductive Outcome where
  | value (v : PyVal)
  | error (e : String)
deriving DecidableEq, Repr

/-- Process-local coalescer state: the `local_waiters` dict (key → slave
deferred ids in registration order), a log of master attempts started
(`get_computed_or_redis_value` invocations — each drives the store
protocol and the wrapped computation at most once), a fresh-id counter for
deferreds, and the log of deferred firings in order. -/
structure LocalState where
  local_waiters : List (Option String × List Nat)
  masters : List (Option String)
  next_id : Nat
  fired : List (Nat × Outcome)
deriving DecidableEq, Repr

/-- Dict lookup in `local_waiters` (`key in local_waiters`). -/
def wlookup : List (Option String × List Nat) → Option String → Option (List Nat)
  | [], _ => none
  | (k₁, sl) :: rest, k => if k₁ = k then some sl else wlookup rest k

/-- `local_waiters[key].slaves.append(d)`: in-place append to the slave
list of an existing entry. -/
def wappend : List (Option String × List Nat) → Option String → Nat →
    List (Option String × List Nat)
  | [], _, _ => []
  | (k₁, sl) :: rest, k, d =>
    if k₁ = k then (k₁, sl ++ [d]) :: rest else (k₁, sl) :: wappend rest k d

/-- `local_waiters.pop(key, None)`: remove the entry for a key. -/
def wremove : List (Option String × List Nat) → Option String →
    List (Option String × List Nat)
  | [], _ => []
  | (k₁, sl) :: rest, k => if k₁ = k then rest else (k₁, sl) :: wremove rest k

/-- One call of `wrapper` (lines 312–340): derive the key, allocate a
fresh deferred; if the key already has an in-flight group append the
deferred as a slave (no master attempt, no store traffic); otherwise start
a master attempt and register the group `Waiters(master, slaves=[d])`.
Returns the caller's deferred id and the new state. -/
def wrapper_call (key : Option String) (s : LocalState) : Nat × LocalState :=
  let d := s.next_id
  match wlookup s.local_waiters key with
  | some _ =>
    (d, { s with local_waiters := wappend s.local_waiters key d,
                 next_id := d + 1 })
  | none =>
    (d, { s with local_waiters := (key, [d]) :: s.local_waiters,
                 masters := key :: s.masters,
                 next_id := d + 1 })

/-- The slave-firing loop of `run_local_waiters`: fire each not-yet-called
deferred with the master's result, in registration order. -/
def fire_slaves (fired : List (Nat × Outcome)) (slaves : List Nat)
    (result : Outcome) : List (Nat × Outcome) :=
  match slaves with
  | [] => fired
  | d :: rest =>
    if d ∈ fired.map Prod.fst then fire_slaves fired rest result
    else fire_slaves (fired ++ [(d, result)]) rest result

/-- `run_local_waiters` (lines 305–310), installed as both callback and
errback of the master deferred: pop the group entry for the key, then fire
every slave with the master's outcome in registration order. -/
def run_local_waiters (key : Option String) (result : Outcome)
    (s : LocalState) : LocalState :=
  match wlookup s.local_waiters key with
  | none => { s with local_waiters := wremove s.local_waiters key }
  | some slaves =>
    { s with local_waiters := wremove s.local_waiters key,
             fired := fire_slaves s.fired slaves result }

/-- A burst of `n` concurrent same-key calls: within one process the calls
between suspension points are serialized, so the burst is `n` successive
`wrapper` invocations before the master completes. -/
def burst_calls (key : Option String) : Nat → LocalState → LocalState
  | 0, s => s
  | n + 1, s => burst_calls key n (wrapper_call key s).2

/-- A loosely-typed Python configuration value, as classified by the
`isinstance`/`callable` tests of `async_cache`. -/
inductive PyV where
  | int (n : Int)
  | str (s : String)
  | pynone
  | func
  | exnClass
  | tuple
  | other
deriving DecidableEq, Repr

/-- `isinstance(x, (int, NoneType))`. -/
def is_int_or_none : PyV → Bool
  | .int _ => true
  | .pynone => true
  | _ => false

/-- `isinstance(x, int) and x <= 0`. -/
def is_int_nonpos : PyV → Bool
  | .int n => n ≤ 0
  | _ => false

/-- `isinstance(x, int) and x < 0`. -/
def is_int_neg : PyV → Bool
  | .int n => n < 0
  | _ => false

/-- `(x is None) or callable(x)`. -/
def is_callable_or_none : PyV → Bool
  | .pynone => true
  | .func => true
  | .exnClass => true
  | _ => false

/-- `isinstance(x, (type, tuple, NoneType))`. -/
def is_exn_spec : PyV → Bool
  | .exnClass => true
  | .tuple => true
  | .pynone => true
  | _ => false

/-- `isinstance(x, basestring)`. -/
def is_string : PyV → Bool
  | .str _ => true
  | _ => false

/-- `isinstance(x, (basestring, NoneType))`. -/
def is_string_or_none : PyV → Bool
  | .str _ => true
  | .pynone => true
  | _ => false

/-- A configuration validation error with its message. -/
inductive VErr where
  | typeError (msg : String)
  | valueError (msg : String)
deriving DecidableEq, Repr

/-- The validation ladder of `async_cache` (lines 67–108), run eagerly at
decoration time, before the wrapper (or the `functools.partial` for the
decorator-with-arguments form) is built: each malformed option is rejected
with its specific error, in source order.  `lock_pfx`/`value_pfx` stand
for the lock/value key prefix options. -/
def async_cache_validate (ttl max_wait keymaker skip_cache_on nspace
    json_encode_func json_decode_func id_tag key_sep lock_pfx value_pfx :
    PyV) : Except VErr Unit :=
  if is_int_or_none ttl = false then
    .error (.typeError "ttl must be an integer or None")
  else if is_int_nonpos ttl then
    .error (.valueError "ttl must be > 0")
  else if is_int_or_none max_wait = false then
    .error (.typeError "max_wait must be an integer or None")
  else if is_int_neg max_wait then
    .error (.valueError "max_wait must be >= 0")
  else if is_callable_or_none keymaker = false then
    .error (.typeError "keymaker must be a callable or None")
  else if is_exn_spec skip_cache_on = false then
    .error (.typeError "skip_cache_on must be an exception class, a tuple of exception classes, or None")
  else if is_string_or_none nspace = false then
    .error (.typeError "namespace must be a string or None")
  else if is_callable_or_none json_encode_func = false then
    .error (.typeError "json_encode_func must be a callable or None")
  else if is_callable_or_none json_decode_func = false then
    .error (.typeError "json_decode_func must be a callable or None")
  else if is_string_or_none id_tag = false then
    .error (.typeError "id_tag must be a string or None")
  else if is_string key_sep = false then
    .error (.typeError "key_sep must be a string")
  else if is_string lock_pfx = false then
    .error (.typeError "lock_key_pfx must be a string")
  else if is_string value_pfx = false then
    .error (.typeError "value_key_pfx must be a string")
  else if lock_pfx = value_pfx then
    .error (.valueError "lock_key_pfx cannot equal value_key_pfx")
  else
    .ok ()

/-- A positional or keyword argument value passed to the wrapped function,
restricted to the atom types whose Python `repr` is modelled below. -/
inductive PyArg where
  | int (n : Int)
  | str (s : String)
deriving DecidableEq, Repr

/-- Python `repr` of an argument atom (for strings: ASCII without quote or
escape characters, where `repr` is the value between single quotes). -/
def repr_arg : PyArg → String
  | .int n => toString n
  | .str s => "'" ++ s ++ "'"

/-- Python `repr` of the non-empty `args` tuple. -/
def repr_args_tuple (args : List PyArg) : String :=
  match args with
  | [a] => "(" ++ repr_arg a ++ ",)"
  | _ => "(" ++ String.intercalate ", " (args.map repr_arg) ++ ")"

/-- Python `repr` of one `(key, value)` item of `kwargs.iteritems()`. -/
def repr_item (it : String × PyArg) : String :=
  "('" ++ it.1 ++ "', " ++ repr_arg it.2 ++ ")"

/-- Python 2 comparison of argument atoms: numbers order before strings
(type-name order), atoms of one type by their value order. -/
def arg_le : PyArg → PyArg → Prop
  | .int m, .int n => m ≤ n
  | .int _, .str _ => True
  | .str _, .int _ => False
  | .str s, .str t => s ≤ t

instance : DecidableRel arg_le := fun a b => by
  cases a <;> cases b <;> simp only [arg_le] <;> infer_instance

/-- Bytewise strict comparison of (ASCII) Python 2 strings, as character
lists. -/
def chars_lt : List Char → List Char → Bool
  | [], [] => false
  | [], _ :: _ => true
  | _ :: _, [] => false
  | c :: cs, d :: ds =>
    if c < d then true else if c = d then chars_lt cs ds else false

/-- Bytewise strict comparison of (ASCII) Python 2 strings. -/
def pystr_lt (a b : String) : Bool := chars_lt a.data b.data

/-- Python 2 comparison of `(key, value)` items: lexicographic, key
first. -/
def item_le (a b : String × PyArg) : Prop :=
  pystr_lt a.1 b.1 = true ∨ (a.1 = b.1 ∧ arg_le a.2 b.2)

instance : DecidableRel item_le := fun a b => by
  unfold item_le
  infer_instance

/-- `sorted(kwargs.iteritems())`. -/
def sorted_items (kwargs : List (String × PyArg)) : List (String × PyArg) :=
  List.insertionSort item_le kwargs

/-- Python `repr` of the sorted item list. -/
def repr_sorted_items (kwargs : List (String × PyArg)) : String :=
  "[" ++ String.intercalate ", " ((sorted_items kwargs).map repr_item) ++ "]"

/-- `SHA1_HEXDIGEST_SIZE = sha1().digest_size * 2`. -/
def SHA1_HEXDIGEST_SIZE : Nat := 20 * 2

/-- Truncate to a 32-bit word. -/
def w32 (x : Nat) : Nat := x % 4294967296

/-- 32-bit left rotation. -/
def rotl32 (n x : Nat) : Nat := w32 (x <<< n) ||| (x >>> (32 - n))

/-- The SHA-1 round function. -/
def sha1_f (i b c d : Nat) : Nat :=
  if i < 20 then (b &&& c) ||| ((4294967295 ^^^ b) &&& d)
  else if i < 40 then b ^^^ c ^^^ d
  else if i < 60 then (b &&& c) ||| (b &&& d) ||| (c &&& d)
  else b ^^^ c ^^^ d

/-- The SHA-1 round constants. -/
def sha1_k (i : Nat) : Nat :=
  if i < 20 then 1518500249
  else if i < 40 then 1859775393
  else if i < 60 then 2400959708
  else 3395469782

/-- SHA-1 message padding: `0x80`, zeros to 56 mod 64, then the bit length
as eight big-endian bytes. -/
def sha1_pad (msg : List Nat) : List Nat :=
  let ml := msg.length * 8
  let zeros := (64 - (msg.length + 9) % 64) % 64
  msg ++ [128] ++ List.replicate zeros 0 ++
    (List.range 8).map (fun i => ml / 2 ^ (8 * (7 - i)) % 256)

/-- Split a byte list into 64-byte chunks. -/
def chunks64 (l : List Nat) : List (List Nat) :=
  if h : l = [] then []
  else l.take 64 :: chunks64 (l.drop 64)
termination_by l.length
decreasing_by
  simp only [List.length_drop]
  exact Nat.sub_lt (List.length_pos.mpr h) (by norm_num)

/-- The sixteen big-endian 32-bit words of one chunk. -/
def bytes_to_words (chunk : List Nat) : List Nat :=
  (List.range 16).map (fun i =>
    chunk.getD (4 * i) 0 * 16777216 + chunk.getD (4 * i + 1) 0 * 65536 +
      chunk.getD (4 * i + 2) 0 * 256 + chunk.getD (4 * i + 3) 0)

/-- Extend sixteen words to the eighty-word message schedule. -/
def extend_words (w : List Nat) : List Nat :=
  (List.range 64).foldl (fun w _ =>
    w ++ [rotl32 1 (w.getD (w.length - 3) 0 ^^^ w.getD (w.length - 8) 0 ^^^
      w.getD (w.length - 14) 0 ^^^ w.getD (w.length - 16) 0)]) w

/-- Compress one 64-byte chunk into the running state. -/
def sha1_compress (h : Nat × Nat × Nat × Nat × Nat) (chunk : List Nat) :
    Nat × Nat × Nat × Nat × Nat :=
  let ws := extend_words (bytes_to_words chunk)
  match h with
  | (h0, h1, h2, h3, h4) =>
    match (List.range 80).foldl (fun st i =>
        match st with
        | (a, b, c, d, e) =>
          (w32 (rotl32 5 a + sha1_f i b c d + e + sha1_k i + ws.getD i 0),
            a, rotl32 30 b, c, d)) (h0, h1, h2, h3, h4) with
    | (a, b, c, d, e) =>
      (w32 (h0 + a), w32 (h1 + b), w32 (h2 + c), w32 (h3 + d), w32 (h4 + e))

/-- The five 32-bit words of the SHA-1 digest of a byte list. -/
def sha1_words (msg : List Nat) : Nat × Nat × Nat × Nat × Nat :=
  (chunks64 (sha1_pad msg)).foldl sha1_compress
    (1732584193, 4023233417, 2562383102, 271733878, 3285377520)

/-- A lowercase hexadecimal digit. -/
def hex_digit (n : Nat) : Char :=
  if n < 10 then Char.ofNat (48 + n) else Char.ofNat (87 + n)

/-- A 32-bit word as eight hexadecimal characters. -/
def hex8 (w : Nat) : String :=
  String.mk ((List.range 8).map (fun i => hex_digit (w / 2 ^ (4 * (7 - i)) % 16)))

/-- `sha1(value).hexdigest()` of a byte list. -/
def sha1_hex_bytes (msg : List Nat) : String :=
  match sha1_words msg with
  | (a, b, c, d, e) => hex8 a ++ hex8 b ++ hex8 c ++ hex8 d ++ hex8 e

/-- The bytes of a (ASCII) Python 2 `str`. -/
def str_bytes (s : String) : List Nat := s.data.map Char.toNat

/-- `sha1(value).hexdigest()` of a string. -/
def sha1_hex (s : String) : String := sha1_hex_bytes (str_bytes s)

/-- `make_key(args, kwargs)` from `walnut/utils.py`: `None` when there are
no arguments at all; otherwise the concatenated `repr`s of the `args`
tuple and of `sorted(kwargs.iteritems())`, replaced by its SHA-1 hex
digest when longer than `SHA1_HEXDIGEST_SIZE` characters. -/
def make_key (args : List PyArg) (kwargs : List (String × PyArg)) :
    Option String :=
  if args.isEmpty && kwargs.isEmpty then
    none
  else
    let v₁ := if args.isEmpty then "" else repr_args_tuple args
    let v₂ := if kwargs.isEmpty then "" else repr_sorted_items kwargs
    let value := v₁ ++ v₂
    if SHA1_HEXDIGEST_SIZE < value.length then some (sha1_hex value)
    else some value

end Walnut

namespace Walnut

theorem find_cons (k₁ : String) (e : Entry) (rest : Store) (k : String) :
    Store.find ((k₁, e) :: rest) k = if k₁ = k then some e else rest.find k := rfl

theorem erase_cons (k₁ : String) (e : Entry) (rest : Store) (k : String) :
    Store.erase ((k₁, e) :: rest) k =
      if k₁ = k then rest.erase k else (k₁, e) :: rest.erase k := by
  by_cases h : k₁ = k <;> simp [Store.erase, h]

@[simp] theorem find_erase_self (st : Store) (k : String) :
    (st.erase k).find k = none := by
  induction st with
  | nil => rfl
  | cons p rest ih =>
    rcases p with ⟨k₁, e⟩
    by_cases h : k₁ = k
    · rw [erase_cons, if_pos h, ih]
    · rw [erase_cons, if_neg h, find_cons, if_neg h, ih]

@[simp] theorem find_erase_ne (st : Store) {k k' : String} (h : k ≠ k') :
    (st.erase k).find k' = st.find k' := by
  induction st with
  | nil => rfl
  | cons p rest ih =>
    rcases p with ⟨k₁, e⟩
    by_cases hp : k₁ = k
    · rw [erase_cons, if_pos hp, ih, find_cons, if_neg (hp ▸ h)]
    · rw [erase_cons, if_neg hp, find_cons, find_cons, ih]

@[simp] theorem find_insert_self (st : Store) (k : String) (e : Entry) :
    (st.insert k e).find k = some e := by
  simp [Store.insert, find_cons]

@[simp] theorem find_insert_ne (st : Store) {k k' : String} (e : Entry) (h : k ≠ k') :
    (st.insert k e).find k' = st.find k' := by
  simp only [Store.insert, find_cons, if_neg h, find_erase_ne st h]

theorem redisCall_setnx (st : Store) (k v : String) :
    redisCall st "setnx" [k, v] =
      (match st.find k with
       | some _ => (st, .ok (.int 0))
       | none   => (st.insert k ⟨.str v, none⟩, .ok (.int 1))) := rfl

theorem redisCall_del (st : Store) (k : String) :
    redisCall st "del" [k] =
      (match st.find k with
       | some _ => (st.erase k, .ok (.int 1))
       | none   => (st, .ok (.int 0))) := rfl

theorem redisCall_lindex (st : Store) (k : String) :
    redisCall st "lindex" [k, "0"] =
      (match st.find k with
       | none => (st, .ok (.bulk none))
       | some ⟨.list l, _⟩ => (st, .ok (.bulk l.head?))
       | some ⟨.str _, _⟩ => (st, .err "WRONGTYPE")) := rfl

theorem erase_of_find_none (st : Store) {k : String} (h : st.find k = none) :
    st.erase k = st := by
  induction st with
  | nil => rfl
  | cons p rest ih =>
    rcases p with ⟨k₁, e⟩
    rw [find_cons] at h
    by_cases hp : k₁ = k
    · rw [if_pos hp] at h
      exact absurd h (by simp)
    · rw [if_neg hp] at h
      rw [erase_cons, if_neg hp, ih h]

theorem redisCall_del_fst (st : Store) (k : String) :
    (redisCall st "del" [k]).1 = st.erase k := by
  rw [redisCall_del]
  rcases h : st.find k with _ | e
  · simp [erase_of_find_none st h]
  · simp

/-- When the lock key is absent, `GET_SCRIPT` acquires it and peeks nothing:
the fresh-epoch case. -/
theorem get_script_fresh (st : Store) (lk vk tag : String)
    (hlk : st.find lk = none) :
    get_script st lk vk tag =
      ((st.insert lk ⟨.str tag, none⟩).erase vk, .ok (1, none)) := by
  have h1 : redisCall st "setnx" [lk, tag] =
      (st.insert lk ⟨.str tag, none⟩, .ok (.int 1)) := by
    rw [redisCall_setnx, hlk]
  have h2 : (redisCall (st.insert lk ⟨.str tag, none⟩) "del" [vk]).1 =
      (st.insert lk ⟨.str tag, none⟩).erase vk := redisCall_del_fst _ _
  have h3 : redisCall ((st.insert lk ⟨.str tag, none⟩).erase vk) "lindex" [vk, "0"] =
      ((st.insert lk ⟨.str tag, none⟩).erase vk, .ok (.bulk none)) := by
    rw [redisCall_lindex, find_erase_self]
  unfold get_script
  rw [h1]
  simp only [h2, h3, if_true]

/-- When the lock key is already held, `GET_SCRIPT` does not acquire it,
does not delete anything, and peeks the current head of the value queue. -/
theorem get_script_held (st : Store) (lk vk tag : String) (e : Entry)
    (hlk : st.find lk = some e) :
    get_script st lk vk tag =
      (match st.find vk with
       | none => (st, .ok (0, none))
       | some ⟨.list l, _⟩ => (st, .ok (0, l.head?))
       | some ⟨.str _, _⟩ => (st, .err "WRONGTYPE")) := by
  have h1 : redisCall st "setnx" [lk, tag] = (st, .ok (.int 0)) := by
    rw [redisCall_setnx, hlk]
  unfold get_script
  rw [h1]
  rcases hv : st.find vk with _ | ⟨⟨s | l, t⟩⟩ <;>
    simp [redisCall_lindex, hv]

/-- Once the lock is held and the value queue is empty, every further
racing `GET_SCRIPT` observes no ownership and leaves the store unchanged. -/
theorem race_locked (lk vk : String) (ts : List String) (st : Store) (e : Entry)
    (hlk : st.find lk = some e) (hvk : st.find vk = none) :
    race st lk vk ts = ts.map (fun _ => false) := by
  induction ts generalizing st with
  | nil => rfl
  | cons t rest ih =>
    have hstep : get_script st lk vk t = (st, .ok (0, none)) := by
      rw [get_script_held st lk vk t e hlk, hvk]
    unfold race
    rw [hstep]
    simp only [ownedOf, List.map]
    exact congrArg _ (ih st hlk hvk)

/-- C2: in a fresh epoch (lock key absent), whatever serialization the
atomic script executions take, the first racing process observes
ownership = true and every other process observes ownership = false; in
particular exactly one process observes ownership. -/
theorem get_script_race_unique_owner (st : Store) (lk vk t : String)
    (ts : List String) (hlk : st.find lk = none) (hne : lk ≠ vk) :
    race st lk vk (t :: ts) = true :: ts.map (fun _ => false) ∧
      (race st lk vk (t :: ts)).count true = 1 := by
  have hfresh := get_script_fresh st lk vk t hlk
  have hrest : race ((st.insert lk ⟨.str t, none⟩).erase vk) lk vk ts =
      ts.map (fun _ => false) := by
    refine race_locked lk vk ts _ ⟨.str t, none⟩ ?_ ?_
    · rw [find_erase_ne _ (Ne.symm hne), find_insert_self]
    · exact find_erase_self _ _
  have hmain : race st lk vk (t :: ts) = true :: ts.map (fun _ => false) := by
    unfold race
    rw [hfresh]
    simp only [ownedOf]
    rw [hrest]
    simp
  refine ⟨hmain, ?_⟩
  rw [hmain]
  simp [List.count_cons, List.count_replicate]

/-- C2 witness: a concrete three-process race on an empty store. -/
theorem get_script_race_unique_owner_witness :
    Store.find [] "L:ns" = none ∧ "L:ns" ≠ "V:ns" ∧
      race [] "L:ns" "V:ns" ["p1", "p2", "p3"] = [true, false, false] ∧
      (race [] "L:ns" "V:ns" ["p1", "p2", "p3"]).count true = 1 := by
  refine ⟨rfl, by decide, ?_⟩
  have h := get_script_race_unique_owner [] "L:ns" "V:ns" "p1" ["p2", "p3"]
    rfl (by decide)
  simpa using h

/-- C3: whenever `GET_SCRIPT` reports ownership, the peeked value is
absent — the owned branch deletes the value key before the peek, so a
fresh epoch never observes a leftover broadcast value. -/
theorem get_script_owned_peek_none (st : Store) (lk vk tag : String)
    (st' : Store) (owned : Nat) (peek : Option String)
    (h : get_script st lk vk tag = (st', .ok (owned, peek)))
    (howned : owned ≠ 0) : peek = none := by
  rcases hlk : st.find lk with _ | e
  · rw [get_script_fresh st lk vk tag hlk] at h
    injection h with hst hout
    injection hout with hp
    injection hp with h1 h2
    exact h2.symm
  · rw [get_script_held st lk vk tag e hlk] at h
    rcases hv : st.find vk with _ | ⟨⟨s | l, t⟩⟩ <;> rw [hv] at h
    · injection h with hst hout
      injection hout with hp
      injection hp with h1 h2
      exact h2.symm
    · injection h with hst hout
      exact ScriptOut.noConfusion hout
    · injection h with hst hout
      injection hout with hp
      injection hp with h1 h2
      exact absurd h1.symm howned

/-- C3 witness: acquiring on an empty store yields ownership with no
peeked value. -/
theorem get_script_owned_peek_none_witness :
    get_script [] "L" "V" "tag" = ([("L", ⟨.str "tag", none⟩)], .ok (1, none)) ∧
      (1 : Nat) ≠ 0 ∧ (none : Option String) = none :=
  ⟨rfl, by decide,
    get_script_owned_peek_none [] "L" "V" "tag" [("L", ⟨.str "tag", none⟩)]
      1 none rfl (by decide)⟩

theorem redisCall_rpush (st : Store) (k v : String) :
    redisCall st "rpush" [k, v] =
      (match st.find k with
       | none => (st.insert k ⟨.list [v], none⟩, .ok (.int 1))
       | some ⟨.list l, t⟩ =>
         (st.insert k ⟨.list (l ++ [v]), t⟩, .ok (.int (l.length + 1)))
       | some ⟨.str _, _⟩ => (st, .err "WRONGTYPE")) := rfl

theorem redisCall_expire (st : Store) (k t : String) :
    redisCall st "expire" [k, t] =
      (match st.find k with
       | some e => (st.insert k ⟨e.val, some t⟩, .ok (.int 1))
       | none   => (st, .ok (.int 0))) := rfl

/-- C7: on owner success, with a configured TTL one atomic script pushes
the content message onto the value key and sets the lock key's expiry to
the TTL; with no TTL only a plain push is issued and the lock key's
binding — in particular its absent expiry — is untouched, so the entry
stays cached indefinitely. -/
theorem cache_value_ttl_semantics (st : Store)
    (value_key lock_key json_msg : String) (lockE : Entry) (T : Nat)
    (hne : value_key ≠ lock_key) (hT : T ≠ 0)
    (hlock : st.find lock_key = some lockE)
    (hvkn : st.find value_key = none) :
    ((cache_value_store st (some T) value_key lock_key json_msg).find value_key =
        some ⟨.list [json_msg], none⟩ ∧
      (cache_value_store st (some T) value_key lock_key json_msg).find lock_key =
        some ⟨lockE.val, some (toString T)⟩) ∧
    ((cache_value_store st none value_key lock_key json_msg).find value_key =
        some ⟨.list [json_msg], none⟩ ∧
      (cache_value_store st none value_key lock_key json_msg).find lock_key =
        some lockE) := by
  have htr : ttl_truthy (some T) = true := by simp [ttl_truthy, hT]
  have e1 : redisCall st "rpush" [value_key, json_msg] =
      (st.insert value_key ⟨.list [json_msg], none⟩, .ok (.int 1)) := by
    rw [redisCall_rpush, hvkn]
  have hfindlk : (st.insert value_key ⟨.list [json_msg], none⟩).find lock_key =
      some lockE := by rw [find_insert_ne st _ hne, hlock]
  have e2 : redisCall (st.insert value_key ⟨.list [json_msg], none⟩)
      "expire" [lock_key, toString T] =
      ((st.insert value_key ⟨.list [json_msg], none⟩).insert lock_key
        ⟨lockE.val, some (toString T)⟩, .ok (.int 1)) := by
    rw [redisCall_expire, hfindlk]
  have hscript : cache_value_store st (some T) value_key lock_key json_msg =
      (st.insert value_key ⟨.list [json_msg], none⟩).insert lock_key
        ⟨lockE.val, some (toString T)⟩ := by
    unfold cache_value_store
    rw [htr, if_pos rfl]
    unfold push_and_expire_script
    rw [show (some T).getD 0 = T from rfl, e1]
    simp only [e2]
  have hplain : cache_value_store st none value_key lock_key json_msg =
      st.insert value_key ⟨.list [json_msg], none⟩ := by
    unfold cache_value_store
    rw [show ttl_truthy none = false from rfl]
    simp only [Bool.false_eq_true, if_false, e1]
  refine ⟨⟨?_, ?_⟩, ?_, ?_⟩
  · rw [hscript, find_insert_ne _ _ (Ne.symm hne), find_insert_self]
  · rw [hscript, find_insert_self]
  · rw [hplain, find_insert_self]
  · rw [hplain, find_insert_ne st _ hne, hlock]

/-- C7 witness: a concrete owner store with and without a TTL of 60. -/
theorem cache_value_ttl_semantics_witness :
    ("V:f" ≠ "L:f") ∧ ((60 : Nat) ≠ 0) ∧
      Store.find [("L:f", ⟨.str "tag", none⟩)] "L:f" = some ⟨.str "tag", none⟩ ∧
      Store.find [("L:f", ⟨.str "tag", none⟩)] "V:f" = none ∧
      (((cache_value_store [("L:f", ⟨.str "tag", none⟩)] (some 60) "V:f" "L:f" "m").find "V:f" =
          some ⟨.list ["m"], none⟩ ∧
        (cache_value_store [("L:f", ⟨.str "tag", none⟩)] (some 60) "V:f" "L:f" "m").find "L:f" =
          some ⟨.str "tag", some "60"⟩) ∧
       ((cache_value_store [("L:f", ⟨.str "tag", none⟩)] none "V:f" "L:f" "m").find "V:f" =
          some ⟨.list ["m"], none⟩ ∧
        (cache_value_store [("L:f", ⟨.str "tag", none⟩)] none "V:f" "L:f" "m").find "L:f" =
          some ⟨.str "tag", none⟩)) :=
  ⟨by decide, by decide, rfl, rfl,
    cache_value_ttl_semantics [("L:f", ⟨.str "tag", none⟩)] "V:f" "L:f" "m"
      ⟨.str "tag", none⟩ 60 (by decide) (by decide) rfl rfl⟩

/-- C10: a computed result of `None` is broadcast as the content message
with a `null` content field; because the empty-placeholder test compares
against the private sentinel, a waiter decoding that message receives
`None` as the value and does not fall back, while the genuine empty
placeholder does trigger fallback. -/
theorem sentinel_null_distinction (fb : PyVal) :
    resolve_waiter_msg (content_msg PyVal.none) fb = (PyVal.none, false) ∧
    resolve_waiter_msg EMPTY_MSG fb = (fb, true) := ⟨rfl, rfl⟩

/-- C5: an unspecified `max_wait` becomes 0; a waiter whose bounded
rotate-pop elapses with nothing available treats the result as the empty
placeholder and falls back to computing directly, and with `max_wait = 0`
(no blocking) the same immediate fallback happens. -/
theorem max_wait_semantics (W : Nat) (fb : PyVal) :
    resolve_max_wait none = 0 ∧
    (∀ skip : SkipOn, wait_for_cached_value skip (.ok none) = .ok EMPTY_JSON_MSG) ∧
    brpoplpush_rotate [] W = (none, []) ∧
    non_owner_flow none [] W fb = (fb, true) ∧
    non_owner_flow none [] 0 fb = (fb, true) :=
  ⟨rfl, fun _ => rfl, rfl, rfl, rfl⟩

/-- C6 counterexample: at the `notify_waiters_and_release_lock` call site
an exception of an unclassified kind (here `ValueError`, with the
configured set containing only `ConnectionError`) is swallowed — the call
returns normally instead of propagating the exception, so unclassified
store failures do NOT propagate at every store call site. -/
theorem notify_unclassified_swallowed :
    (fun cls => cls == "ConnectionError" : SkipOn) "ValueError" = false ∧
    notify_waiters_and_release_lock (PyRes.exn "ValueError") = PyRes.ok () ∧
    notify_waiters_and_release_lock (PyRes.exn "ValueError") ≠
      PyRes.exn "ValueError" := ⟨rfl, rfl, by decide⟩

/-- C6 amended: classified store failures are caught, logged and
substituted at every call site (a failed acquisition becomes
`(False, EMPTY_JSON_MSG)` so the caller falls back to direct computation;
a failed publish is logged only); unclassified failures propagate
unchanged at the acquisition, publish-on-success and wait call sites,
while the failure-notification site catches and logs every exception,
classified or not. -/
theorem degradation_policy_per_site (skip : SkipOn) (cls : String) :
    (skip cls = true →
      get_lock_or_cached_value skip (.exn cls) = .ok (false, some EMPTY_JSON_MSG) ∧
      cache_value_handler skip (.exn cls) = .ok () ∧
      wait_for_cached_value skip (.exn cls) = .ok EMPTY_JSON_MSG) ∧
    (skip cls = false →
      get_lock_or_cached_value skip (.exn cls) = .exn cls ∧
      cache_value_handler skip (.exn cls) = .exn cls ∧
      wait_for_cached_value skip (.exn cls) = .exn cls) ∧
    notify_waiters_and_release_lock (.exn cls) = .ok () := by
  refine ⟨fun h => ?_, fun h => ?_, rfl⟩ <;>
    simp [get_lock_or_cached_value, cache_value_handler,
      wait_for_cached_value, h]

/-- C6 amended witness: both a classified and an unclassified failure with
the default `skip_cache_on = (ConnectionError,)`. -/
theorem degradation_policy_per_site_witness :
    ((fun cls => cls == "ConnectionError" : SkipOn) "ConnectionError" = true ∧
      get_lock_or_cached_value (fun cls => cls == "ConnectionError")
        (.exn "ConnectionError") = .ok (false, some EMPTY_JSON_MSG)) ∧
    ((fun cls => cls == "ConnectionError" : SkipOn) "ValueError" = false ∧
      wait_for_cached_value (fun cls => cls == "ConnectionError")
        (.exn "ValueError") = .exn "ValueError") :=
  ⟨⟨rfl, ((degradation_policy_per_site
      (fun cls => cls == "ConnectionError") "ConnectionError").1 rfl).1⟩,
   ⟨rfl, (((degradation_policy_per_site
      (fun cls => cls == "ConnectionError") "ValueError").2.1 rfl).2).2⟩⟩

theorem fire_slaves_all (fired : List (Nat × Outcome)) (slaves : List Nat)
    (result : Outcome) (h : ∀ d ∈ slaves, d ∉ fired.map Prod.fst)
    (hnd : slaves.Nodup) :
    fire_slaves fired slaves result =
      fired ++ slaves.map (fun d => (d, result)) := by
  induction slaves generalizing fired with
  | nil => simp [fire_slaves]
  | cons d rest ih =>
    have hd : d ∉ fired.map Prod.fst := h d (List.mem_cons_self d rest)
    rw [fire_slaves, if_neg hd,
      ih (fired ++ [(d, result)]) ?_ (List.nodup_cons.mp hnd).2]
    · simp
    · intro d' hd'
      rw [List.map_append, List.mem_append]
      rintro (hc | hc)
      · exact h d' (List.mem_cons_of_mem _ hd') hc
      · simp only [List.map_cons, List.map_nil, List.mem_singleton] at hc
        exact (List.nodup_cons.mp hnd).1 (hc ▸ hd')

theorem burst_calls_at_head (key : Option String) (n : Nat) :
    ∀ (sl : List Nat) (rest : List (Option String × List Nat))
      (ms : List (Option String)) (nid : Nat) (fd : List (Nat × Outcome)),
    burst_calls key n ⟨(key, sl) :: rest, ms, nid, fd⟩ =
      ⟨(key, sl ++ List.range' nid n) :: rest, ms, nid + n, fd⟩ := by
  induction n with
  | zero =>
    intro sl rest ms nid fd
    simp [burst_calls]
  | succ n ih =>
    intro sl rest ms nid fd
    have hw : wrapper_call key ⟨(key, sl) :: rest, ms, nid, fd⟩ =
        (nid, ⟨(key, sl ++ [nid]) :: rest, ms, nid + 1, fd⟩) := by
      unfold wrapper_call
      simp [wlookup, wappend]
    rw [burst_calls, hw]
    dsimp only
    rw [ih]
    have h1 : (sl ++ [nid]) ++ List.range' (nid + 1) n =
        sl ++ List.range' nid (n + 1) := by
      rw [List.append_assoc, List.range'_succ]
      rfl
    have h2 : nid + 1 + n = nid + (n + 1) := by omega
    rw [h1, h2]

theorem burst_calls_fresh (key : Option String) (n : Nat) (s : LocalState)
    (hf : wlookup s.local_waiters key = none) :
    burst_calls key (n + 1) s =
      ⟨(key, List.range' s.next_id (n + 1)) :: s.local_waiters,
        key :: s.masters, s.next_id + (n + 1), s.fired⟩ := by
  obtain ⟨lw, ms, nid, fd⟩ := s
  simp only at hf ⊢
  have hw : wrapper_call key ⟨lw, ms, nid, fd⟩ =
      (nid, ⟨(key, [nid]) :: lw, key :: ms, nid + 1, fd⟩) := by
    unfold wrapper_call
    rw [hf]
  rw [burst_calls, hw]
  dsimp only
  rw [burst_calls_at_head]
  have h1 : [nid] ++ List.range' (nid + 1) n = List.range' nid (n + 1) := by
    rw [List.range'_succ]
    rfl
  have h2 : nid + 1 + n = nid + (n + 1) := by omega
  rw [h1, h2]

/-- C1: for a burst of `n + 1` concurrent same-process calls sharing a
key, only the first caller starts a master attempt (one new entry in the
master log, which is one `get_computed_or_redis_value` invocation, hence
at most one drive of the store protocol and wrapped computation); the
later callers are appended as slaves in registration order and start no
master; when the master completes with any outcome every caller's
deferred is fired with that same outcome in registration order; the group
entry for the key is removed; and a subsequent call starts a fresh master
attempt. -/
theorem local_coalescer_burst (s : LocalState) (key : Option String)
    (n : Nat) (result : Outcome)
    (hfresh : wlookup s.local_waiters key = none)
    (hwf : ∀ d ∈ s.fired.map Prod.fst, d < s.next_id) :
    (burst_calls key (n + 1) s).masters = key :: s.masters ∧
    wlookup (burst_calls key (n + 1) s).local_waiters key =
      some (List.range' s.next_id (n + 1)) ∧
    (run_local_waiters key result (burst_calls key (n + 1) s)).fired =
      s.fired ++ (List.range' s.next_id (n + 1)).map (fun d => (d, result)) ∧
    wlookup (run_local_waiters key result
      (burst_calls key (n + 1) s)).local_waiters key = none ∧
    (wrapper_call key (run_local_waiters key result
      (burst_calls key (n + 1) s))).2.masters =
      key :: (run_local_waiters key result (burst_calls key (n + 1) s)).masters := by
  obtain ⟨lw, ms, nid, fd⟩ := s
  simp only at hfresh hwf ⊢
  rw [burst_calls_fresh key n ⟨lw, ms, nid, fd⟩ hfresh]
  dsimp only
  have hlook : wlookup ((key, List.range' nid (n + 1)) :: lw) key =
      some (List.range' nid (n + 1)) := by
    simp [wlookup]
  have hrun : run_local_waiters key result
      ⟨(key, List.range' nid (n + 1)) :: lw, key :: ms, nid + (n + 1), fd⟩ =
      ⟨lw, key :: ms, nid + (n + 1),
        fd ++ (List.range' nid (n + 1)).map (fun d => (d, result))⟩ := by
    unfold run_local_waiters
    rw [hlook]
    dsimp only
    have hrm : wremove ((key, List.range' nid (n + 1)) :: lw) key = lw := by
      simp [wremove]
    rw [hrm, fire_slaves_all fd (List.range' nid (n + 1)) result ?_
      (List.nodup_range' nid (n + 1))]
    intro d hdmem hdf
    have h1 : nid ≤ d := (List.mem_range'_1.mp hdmem).1
    have h2 : d < nid := hwf d hdf
    omega
  refine ⟨rfl, hlook, ?_, ?_, ?_⟩
  · rw [hrun]
  · rw [hrun]
    exact hfresh
  · rw [hrun]
    unfold wrapper_call
    rw [show wlookup lw key = none from hfresh]

/-- C1 witness: a burst of three calls on key `"k"` from the initial
state, with the master completing with value 42. -/
theorem local_coalescer_burst_witness :
    wlookup (LocalState.mk [] [] 0 []).local_waiters (some "k") = none ∧
    (∀ d ∈ (LocalState.mk [] [] 0 []).fired.map Prod.fst,
      d < (LocalState.mk [] [] 0 []).next_id) ∧
    ((burst_calls (some "k") 3 (LocalState.mk [] [] 0 [])).masters =
        [some "k"] ∧
      wlookup (burst_calls (some "k") 3
          (LocalState.mk [] [] 0 [])).local_waiters (some "k") =
        some (List.range' 0 3) ∧
      (run_local_waiters (some "k") (.value (.int 42))
          (burst_calls (some "k") 3 (LocalState.mk [] [] 0 []))).fired =
        [] ++ (List.range' 0 3).map (fun d => (d, Outcome.value (.int 42))) ∧
      wlookup (run_local_waiters (some "k") (.value (.int 42))
          (burst_calls (some "k") 3
            (LocalState.mk [] [] 0 []))).local_waiters (some "k") = none ∧
      (wrapper_call (some "k") (run_local_waiters (some "k")
          (.value (.int 42)) (burst_calls (some "k") 3
            (LocalState.mk [] [] 0 [])))).2.masters =
        some "k" :: (run_local_waiters (some "k") (.value (.int 42))
          (burst_calls (some "k") 3 (LocalState.mk [] [] 0 []))).masters) :=
  ⟨rfl, by simp,
    local_coalescer_burst (LocalState.mk [] [] 0 []) (some "k") 2
      (.value (.int 42)) rfl (by simp)⟩

/-- C4 (code-bug evidence): `PUSH_AND_DELETE_SCRIPT` invokes the
nonexistent command name `delete` (Redis deletion is `del`, as
`GET_SCRIPT` itself uses), so on the owner-failure path the script pushes
the empty placeholder and then aborts with an unknown-command error: the
lock key is NOT deleted and no `(push_result, delete_result)` pair is
returned. -/
theorem push_and_delete_script_unknown_command :
    push_and_delete_script [("L:ns", ⟨.str "owner", none⟩)] "V:ns" "L:ns" "\x7b\x7d" =
      ([("V:ns", ⟨.list ["\x7b\x7d"], none⟩), ("L:ns", ⟨.str "owner", none⟩)],
        .err "ERR Unknown Redis command called from script: delete") ∧
      (push_and_delete_script [("L:ns", ⟨.str "owner", none⟩)]
          "V:ns" "L:ns" "\x7b\x7d").1.find "L:ns" = some ⟨.str "owner", none⟩ := by
  constructor <;> rfl

/-- C8: `async_cache` rejects each malformed option eagerly at decoration
time with its specific error: a TypeError when `ttl` is neither an integer
nor None and a ValueError when it is an integer ≤ 0; a TypeError when
`max_wait` is neither an integer nor None and a ValueError when it is a
negative integer; and a ValueError when the lock key prefix equals the
value key prefix (once the earlier, source-ordered checks pass). -/
theorem async_cache_validate_errors
    (ttl max_wait keymaker skip_cache_on nspace json_encode_func
      json_decode_func id_tag key_sep lock_pfx value_pfx : PyV) :
    (is_int_or_none ttl = false →
      async_cache_validate ttl max_wait keymaker skip_cache_on nspace
        json_encode_func json_decode_func id_tag key_sep lock_pfx value_pfx =
        .error (.typeError "ttl must be an integer or None")) ∧
    (∀ n : Int, ttl = .int n → n ≤ 0 →
      async_cache_validate ttl max_wait keymaker skip_cache_on nspace
        json_encode_func json_decode_func id_tag key_sep lock_pfx value_pfx =
        .error (.valueError "ttl must be > 0")) ∧
    (is_int_or_none ttl = true → is_int_nonpos ttl = false →
      is_int_or_none max_wait = false →
      async_cache_validate ttl max_wait keymaker skip_cache_on nspace
        json_encode_func json_decode_func id_tag key_sep lock_pfx value_pfx =
        .error (.typeError "max_wait must be an integer or None")) ∧
    (∀ n : Int, is_int_or_none ttl = true → is_int_nonpos ttl = false →
      max_wait = .int n → n < 0 →
      async_cache_validate ttl max_wait keymaker skip_cache_on nspace
        json_encode_func json_decode_func id_tag key_sep lock_pfx value_pfx =
        .error (.valueError "max_wait must be >= 0")) ∧
    (∀ p : String, is_int_or_none ttl = true → is_int_nonpos ttl = false →
      is_int_or_none max_wait = true → is_int_neg max_wait = false →
      is_callable_or_none keymaker = true → is_exn_spec skip_cache_on = true →
      is_string_or_none nspace = true →
      is_callable_or_none json_encode_func = true →
      is_callable_or_none json_decode_func = true →
      is_string_or_none id_tag = true → is_string key_sep = true →
      lock_pfx = .str p → value_pfx = .str p →
      async_cache_validate ttl max_wait keymaker skip_cache_on nspace
        json_encode_func json_decode_func id_tag key_sep lock_pfx value_pfx =
        .error (.valueError "lock_key_pfx cannot equal value_key_pfx")) := by
  refine ⟨fun h1 => ?_, fun n hn hle => ?_, fun h1 h2 h3 => ?_,
    fun n h1 h2 hn hlt => ?_,
    fun p h1 h2 h3 h4 h5 h6 h7 h8 h9 h10 h11 hl hv => ?_⟩
  · simp [async_cache_validate, h1]
  · subst hn
    simp [async_cache_validate, is_int_or_none, is_int_nonpos, hle]
  · simp [async_cache_validate, h1, h2, h3]
  · subst hn
    have hmw : is_int_or_none (.int n) = true := rfl
    have hneg : is_int_neg (.int n) = true := by simp [is_int_neg, hlt]
    simp [async_cache_validate, h1, h2, hmw, hneg]
  · subst hl
    subst hv
    have hsp : is_string (.str p) = true := rfl
    simp [async_cache_validate, h1, h2, h3, h4, h5, h6, h7, h8, h9, h10, h11,
      hsp]

/-- C8 witness: one concrete rejection per validated option of the claim,
with the remaining options well-formed. -/
theorem async_cache_validate_errors_witness :
    (async_cache_validate (.str "x") (.int 5) .pynone .pynone .pynone .pynone
        .pynone .pynone (.str ":") (.str "L") (.str "V") =
      .error (.typeError "ttl must be an integer or None")) ∧
    (async_cache_validate (.int 0) (.int 5) .pynone .pynone .pynone .pynone
        .pynone .pynone (.str ":") (.str "L") (.str "V") =
      .error (.valueError "ttl must be > 0")) ∧
    (async_cache_validate (.int 60) (.str "x") .pynone .pynone .pynone .pynone
        .pynone .pynone (.str ":") (.str "L") (.str "V") =
      .error (.typeError "max_wait must be an integer or None")) ∧
    (async_cache_validate (.int 60) (.int (-1)) .pynone .pynone .pynone
        .pynone .pynone .pynone (.str ":") (.str "L") (.str "V") =
      .error (.valueError "max_wait must be >= 0")) ∧
    (async_cache_validate (.int 60) (.int 5) .pynone .pynone .pynone .pynone
        .pynone .pynone (.str ":") (.str "L") (.str "L") =
      .error (.valueError "lock_key_pfx cannot equal value_key_pfx")) :=
  ⟨(async_cache_validate_errors (.str "x") (.int 5) .pynone .pynone .pynone
      .pynone .pynone .pynone (.str ":") (.str "L") (.str "V")).1 rfl,
   (async_cache_validate_errors (.int 0) (.int 5) .pynone .pynone .pynone
      .pynone .pynone .pynone (.str ":") (.str "L") (.str "V")).2.1 0 rfl
      (by decide),
   (async_cache_validate_errors (.int 60) (.str "x") .pynone .pynone .pynone
      .pynone .pynone .pynone (.str ":") (.str "L") (.str "V")).2.2.1 rfl
      (by decide) rfl,
   (async_cache_validate_errors (.int 60) (.int (-1)) .pynone .pynone .pynone
      .pynone .pynone .pynone (.str ":") (.str "L") (.str "V")).2.2.2.1 (-1)
      rfl (by decide) rfl (by decide),
   (async_cache_validate_errors (.int 60) (.int 5) .pynone .pynone .pynone
      .pynone .pynone .pynone (.str ":") (.str "L") (.str "L")).2.2.2.2 "L"
      rfl (by decide) rfl (by decide) rfl rfl rfl rfl rfl rfl rfl rfl rfl⟩

theorem hex8_length (w : Nat) : (hex8 w).length = 8 := by
  simp [hex8, String.length]

theorem sha1_hex_length (s : String) : (sha1_hex s).length = 40 := by
  unfold sha1_hex sha1_hex_bytes
  rcases h : sha1_words (str_bytes s) with ⟨a, b, c, d, e⟩
  simp [String.length_append, hex8_length]

theorem chars_lt_irrefl : ∀ a, chars_lt a a = false := by
  intro a
  induction a with
  | nil => rfl
  | cons x xs ih => simp [chars_lt, lt_irrefl, ih]

theorem chars_lt_asymm : ∀ a b, chars_lt a b = true → chars_lt b a = true →
    False := by
  intro a
  induction a with
  | nil =>
    intro b hab hba
    cases b <;> simp [chars_lt] at hab hba
  | cons x xs ih =>
    intro b hab hba
    cases b with
    | nil => simp [chars_lt] at hab
    | cons y ys =>
      simp only [chars_lt] at hab hba
      by_cases h1 : x < y
      · have h2 : ¬y < x := lt_asymm h1
        have h3 : ¬y = x := fun e => absurd (e ▸ h1) (lt_irrefl _)
        simp [h2, h3] at hba
      · by_cases h1e : x = y
        · subst h1e
          simp [lt_irrefl] at hab hba
          exact ih ys hab hba
        · simp [h1, h1e] at hab

theorem chars_lt_trans : ∀ a b c, chars_lt a b = true → chars_lt b c = true →
    chars_lt a c = true := by
  intro a
  induction a with
  | nil =>
    intro b c hab hbc
    cases b with
    | nil => simp [chars_lt] at hab
    | cons y ys =>
      cases c with
      | nil => simp [chars_lt] at hbc
      | cons z zs => rfl
  | cons x xs ih =>
    intro b c hab hbc
    cases b with
    | nil => simp [chars_lt] at hab
    | cons y ys =>
      cases c with
      | nil => simp [chars_lt] at hbc
      | cons z zs =>
        simp only [chars_lt] at hab hbc ⊢
        by_cases h1 : x < y
        · by_cases h2 : y < z
          · simp [lt_trans h1 h2]
          · by_cases h3 : y = z
            · subst h3
              simp [h1]
            · simp [h2, h3] at hbc
        · by_cases h1e : x = y
          · subst h1e
            by_cases h2 : x < z
            · simp [h2]
            · by_cases h3 : x = z
              · subst h3
                simp [lt_irrefl] at hab hbc ⊢
                exact ih ys zs hab hbc
              · simp [h2, h3] at hbc
          · simp [h1, h1e] at hab

theorem chars_lt_total : ∀ a b,
    chars_lt a b = true ∨ a = b ∨ chars_lt b a = true := by
  intro a
  induction a with
  | nil =>
    intro b
    cases b <;> simp [chars_lt]
  | cons x xs ih =>
    intro b
    cases b with
    | nil => simp [chars_lt]
    | cons y ys =>
      rcases lt_trichotomy x y with h | h | h
      · left
        simp [chars_lt, h]
      · subst h
        rcases ih ys with h' | h' | h'
        · left
          simp [chars_lt, lt_irrefl, h']
        · right
          left
          rw [h']
        · right
          right
          simp [chars_lt, lt_irrefl, h']
      · right
        right
        have h2 : ¬x < y := lt_asymm h
        have h3 : ¬y = x := fun e => absurd (e ▸ h) (lt_irrefl _)
        simp [chars_lt, h, h2, h3]

theorem string_eq_of_data_eq {a b : String} (h : a.data = b.data) : a = b := by
  cases a
  cases b
  exact congrArg String.mk h

theorem item_le_refl : ∀ a, item_le a a := by
  rintro ⟨k, v⟩
  refine Or.inr ⟨rfl, ?_⟩
  cases v <;> simp [arg_le]

theorem item_le_total_fact : ∀ a b : String × PyArg,
    item_le a b ∨ item_le b a := by
  rintro ⟨ka, va⟩ ⟨kb, vb⟩
  rcases chars_lt_total ka.data kb.data with h | h | h
  · exact Or.inl (Or.inl h)
  · have hk : ka = kb := string_eq_of_data_eq h
    subst hk
    have : arg_le va vb ∨ arg_le vb va := by
      cases va <;> cases vb <;> simp only [arg_le] <;>
        first
        | exact Or.inl trivial
        | exact Or.inr trivial
        | exact le_total _ _
    rcases this with h' | h'
    · exact Or.inl (Or.inr ⟨rfl, h'⟩)
    · exact Or.inr (Or.inr ⟨rfl, h'⟩)
  · exact Or.inr (Or.inl h)

theorem item_le_trans_fact : ∀ a b c : String × PyArg,
    item_le a b → item_le b c → item_le a c := by
  rintro ⟨ka, va⟩ ⟨kb, vb⟩ ⟨kc, vc⟩ (hab | ⟨hab, hva⟩) (hbc | ⟨hbc, hvb⟩)
  · exact Or.inl (chars_lt_trans _ _ _ hab hbc)
  · exact Or.inl (hbc ▸ hab)
  · exact Or.inl (hab ▸ hbc)
  · refine Or.inr ⟨hab.trans hbc, ?_⟩
    cases va <;> cases vb <;> cases vc <;>
      simp only [arg_le] at hva hvb ⊢ <;>
      first
      | trivial
      | exact le_trans hva hvb

theorem item_le_antisymm_fact : ∀ a b : String × PyArg,
    item_le a b → item_le b a → a = b := by
  rintro ⟨ka, va⟩ ⟨kb, vb⟩ (hab | ⟨hab, hva⟩) (hba | ⟨hba, hvb⟩)
  · exact absurd hba (fun h => chars_lt_asymm _ _ hab h)
  · subst hba
    exact absurd hab (by simp [pystr_lt, chars_lt_irrefl])
  · subst hab
    exact absurd hba (by simp [pystr_lt, chars_lt_irrefl])
  · subst hab
    have : va = vb := by
      cases va <;> cases vb <;> simp only [arg_le] at hva hvb <;>
        first
        | rfl
        | exact congrArg _ (le_antisymm hva hvb)
    rw [this]

theorem digest_or_verbatim_ne_none (v : String) :
    (if SHA1_HEXDIGEST_SIZE < v.length then some (sha1_hex v) else some v) ≠
      none := by
  split <;> simp

theorem digest_or_verbatim_length (v : String) (s : String)
    (hs : (if SHA1_HEXDIGEST_SIZE < v.length then some (sha1_hex v)
      else some v) = some s) : s.length ≤ SHA1_HEXDIGEST_SIZE := by
  split at hs
  · injection hs with hs
    rw [← hs, sha1_hex_length, SHA1_HEXDIGEST_SIZE]
  · injection hs with hs
    rename_i h40
    rw [← hs]
    omega

theorem sorted_items_perm_eq (kw₁ kw₂ : List (String × PyArg))
    (h : kw₁.Perm kw₂) : sorted_items kw₁ = sorted_items kw₂ := by
  haveI : IsTotal (String × PyArg) item_le := ⟨item_le_total_fact⟩
  haveI : IsTrans (String × PyArg) item_le := ⟨item_le_trans_fact⟩
  haveI : IsAntisymm (String × PyArg) item_le := ⟨item_le_antisymm_fact⟩
  have hp : (sorted_items kw₁).Perm (sorted_items kw₂) :=
    (List.perm_insertionSort item_le kw₁).trans
      (h.trans (List.perm_insertionSort item_le kw₂).symm)
  have hs₁ : List.Sorted item_le (sorted_items kw₁) :=
    List.sorted_insertionSort item_le kw₁
  have hs₂ : List.Sorted item_le (sorted_items kw₂) :=
    List.sorted_insertionSort item_le kw₂
  exact List.eq_of_perm_of_sorted hp hs₁ hs₂

/-- C9: the default keymaker returns absent exactly when there are no
arguments at all; any key it returns is at most `SHA1_HEXDIGEST_SIZE` (40)
characters long, a longer rendering being replaced by its SHA-1 hex
digest; and the key does not depend on the order in which the keyword
arguments were supplied, because the items are sorted before rendering. -/
theorem make_key_spec (args : List PyArg) (kw₁ kw₂ : List (String × PyArg)) :
    (make_key args kw₁ = none ↔ args = [] ∧ kw₁ = []) ∧
    (∀ s, make_key args kw₁ = some s → s.length ≤ SHA1_HEXDIGEST_SIZE) ∧
    (kw₁.Perm kw₂ → make_key args kw₁ = make_key args kw₂) := by
  refine ⟨?_, ?_, ?_⟩
  · constructor
    · intro hnone
      unfold make_key at hnone
      split at hnone
      · rename_i hcond
        simpa only [Bool.and_eq_true, List.isEmpty_iff] using hcond
      · dsimp only at hnone
        exact absurd hnone (digest_or_verbatim_ne_none _)
    · rintro ⟨h1, h2⟩
      subst h1
      subst h2
      rfl
  · intro s hs
    unfold make_key at hs
    split at hs
    · cases hs
    · dsimp only at hs
      exact digest_or_verbatim_length _ s hs
  · intro hperm
    have hb : kw₁.isEmpty = kw₂.isEmpty := by
      rcases kw₁ with _ | ⟨x, xs⟩
      · rw [hperm.symm.eq_nil]
      · rcases hk₂ : kw₂ with _ | ⟨y, ys⟩
        · exact absurd (hk₂ ▸ hperm).eq_nil (by simp)
        · rfl
    have hrepr : repr_sorted_items kw₁ = repr_sorted_items kw₂ := by
      unfold repr_sorted_items
      rw [sorted_items_perm_eq kw₁ kw₂ hperm]
    unfold make_key
    rw [hb, hrepr]

/-- C9 witness: a concrete call whose keyword arguments are permuted, with
the rendered key short enough to be returned verbatim, plus the
no-argument case. -/
theorem make_key_spec_witness :
    (make_key [PyArg.int 1] [("b", .int 2), ("a", .str "y")] =
      make_key [PyArg.int 1] [("a", .str "y"), ("b", .int 2)]) ∧
    (make_key [PyArg.int 1] [("b", .int 2), ("a", .str "y")] =
      some "(1,)[('a', 'y'), ('b', 2)]") ∧
    "(1,)[('a', 'y'), ('b', 2)]".length ≤ SHA1_HEXDIGEST_SIZE ∧
    make_key [] [] = none :=
  ⟨(make_key_spec [PyArg.int 1] [("b", .int 2), ("a", .str "y")]
      [("a", .str "y"), ("b", .int 2)]).2.2 (by decide),
   by decide,
   (make_key_spec [PyArg.int 1] [("b", .int 2), ("a", .str "y")] []).2.1
      "(1,)[('a', 'y'), ('b', 2)]" (by decide),
   (make_key_spec [] [] []).1.mpr ⟨rfl, rfl⟩⟩

end Walnut
